import Mathlib

/-!
# Process entry shim of Minesweeper (Android)

Verification development for `src/android/app/src/main/cpp/main.c`:

```c
int main(void)
{
    BeefStart();
    Minesweeper_Android_Main();
    BeefStop();
    return 0;
}
```

The three functions `BeefStart`, `Minesweeper_Android_Main` and `BeefStop` are
declared in the file but defined elsewhere, so the embedding takes them as
parameters.  A call of a C function either returns to its caller or ends the
process inside the call (`exit`, `abort`); both are modelled, over an explicit
state of the outside world.
-/

namespace Minesweeper

/-- Result of running a piece of C code from a state of the outside world:
either control comes back with a value, or the process has ended inside the
code with an exit status.  Both carry the state reached. -/
inductive Outcome (σ α : Type) where
  | returned (value : α) (s : σ)
  | terminated (status : Int) (s : σ)
  deriving DecidableEq

/-- A C computation over the world state `σ` giving an `α` when it returns. -/
def Proc (σ α : Type) : Type := σ → Outcome σ α

/-- The statement `return v;`. -/
def Proc.ret {σ α : Type} (v : α) : Proc σ α :=
  fun s => Outcome.returned v s

/-- Sequencing of C statements: the rest runs only when the first part returns;
when the process ends in the first part nothing after it is executed. -/
def Proc.seq {σ α β : Type} (p : Proc σ α) (k : α → Proc σ β) : Proc σ β :=
  fun s =>
    match p s with
    | Outcome.returned v s1 => k v s1
    | Outcome.terminated c s1 => Outcome.terminated c s1

instance instMonadProc {σ : Type} : Monad (Proc σ) where
  pure := Proc.ret
  bind := Proc.seq

/-- The function `main` of `main.c`, over the three functions it calls. -/
def main {σ : Type} (BeefStart Minesweeper_Android_Main BeefStop : Proc σ Unit) :
    Proc σ Int := do
  BeefStart
  Minesweeper_Android_Main
  BeefStop
  return 0

/-- The state in which an outcome leaves the outside world. -/
def Outcome.state {σ α : Type} : Outcome σ α → σ
  | Outcome.returned _ s => s
  | Outcome.terminated _ s => s

/-- The status with which the process ends when `main` has this outcome: the
value `main` returns, or the status of the call that ended the process. -/
def Outcome.exitStatus {σ : Type} : Outcome σ Int → Int
  | Outcome.returned v _ => v
  | Outcome.terminated c _ => c

/-- An outside function that always returns, changing the world by `f`. -/
def call {σ : Type} (f : σ → σ) : Proc σ Unit :=
  fun s => Outcome.returned () (f s)

/-- An outside function that ends the process with status `c`, like `exit(c)`. -/
def exitWith {σ : Type} (c : Int) : Proc σ Unit :=
  fun s => Outcome.terminated c s

/-- A mock that appends its name to the call log and returns. -/
def mock (name : String) : Proc (List String) Unit :=
  call (fun log => log ++ [name])

/-- An outside function instrumented with a call log: entering the function
appends `name` to the log, then the function behaves as `f` on the rest of the
world, returning or ending the process. -/
def traced {σ : Type} (name : String) (f : Proc σ Unit) : Proc (List String × σ) Unit :=
  fun s =>
    match f s.2 with
    | Outcome.returned v w => Outcome.returned v (s.1 ++ [name], w)
    | Outcome.terminated c w => Outcome.terminated c (s.1 ++ [name], w)

/-- The call log at the end of a run of `main` with the three outside functions
instrumented as "init", "run" and "finalize", from the empty log. -/
def callLog {σ : Type} (BeefStart Minesweeper_Android_Main BeefStop : Proc σ Unit)
    (w : σ) : List String :=
  (main (traced "init" BeefStart) (traced "run" Minesweeper_Android_Main)
    (traced "finalize" BeefStop) ([], w)).state.1

/-! ## Unfolding of `main` -/

theorem main_eq {σ : Type} (f g h : Proc σ Unit) (s : σ) :
    main f g h s =
      match f s with
      | Outcome.terminated c s1 => Outcome.terminated c s1
      | Outcome.returned _ s1 =>
        match g s1 with
        | Outcome.terminated c s2 => Outcome.terminated c s2
        | Outcome.returned _ s2 =>
          match h s2 with
          | Outcome.terminated c s3 => Outcome.terminated c s3
          | Outcome.returned _ s3 => Outcome.returned 0 s3 := by
  show Proc.seq f (fun _ => Proc.seq g (fun _ => Proc.seq h (fun _ => Proc.ret 0))) s = _
  unfold Proc.seq Proc.ret
  cases f s <;> simp
  rename_i s1
  cases g s1 <;> simp
  rename_i s2
  cases h s2 <;> simp

/-- The call log in terms of what the first two outside functions do: the log
stops after the first call that ends the process. -/
theorem callLog_eq {σ : Type} (f g h : Proc σ Unit) (w : σ) :
    callLog f g h w =
      match f w with
      | Outcome.terminated _ _ => ["init"]
      | Outcome.returned _ w1 =>
        match g w1 with
        | Outcome.terminated _ _ => ["init", "run"]
        | Outcome.returned _ _ => ["init", "run", "finalize"] := by
  unfold callLog
  rw [main_eq]
  unfold traced
  simp only []
  cases f w <;> simp [Outcome.state]
  rename_i w1
  cases g w1 <;> simp [Outcome.state]
  rename_i w2
  cases h w2 <;> simp [Outcome.state]

/-- The call log is one of three lists. -/
theorem callLog_cases {σ : Type} (f g h : Proc σ Unit) (w : σ) :
    callLog f g h w = ["init"] ∨ callLog f g h w = ["init", "run"] ∨
      callLog f g h w = ["init", "run", "finalize"] := by
  rw [callLog_eq]
  cases hf : f w with
  | terminated c w1 => simp
  | returned u w1 =>
    cases hg : g w1 with
    | terminated c w2 => simp [hg]
    | returned u2 w2 => simp [hg]

/-- Claim C1: with the three outside functions mocked to append "init", "run"
and "finalize" to a call log and return, `main` started on the empty log
returns with the log exactly `["init", "run", "finalize"]`, so each function
is called exactly once, in that order, and nothing else is recorded. -/
theorem main_mock_log :
    main (mock "init") (mock "run") (mock "finalize") [] =
        Outcome.returned 0 ["init", "run", "finalize"] ∧
      (main (mock "init") (mock "run") (mock "finalize") []).state.count "init" = 1 ∧
      (main (mock "init") (mock "run") (mock "finalize") []).state.count "run" = 1 ∧
      (main (mock "init") (mock "run") (mock "finalize") []).state.count "finalize" = 1 ∧
      (main (mock "init") (mock "run") (mock "finalize") []).state.length = 3 := by
  have h : main (mock "init") (mock "run") (mock "finalize") [] =
      Outcome.returned 0 ["init", "run", "finalize"] := by
    rw [main_eq]; rfl
  rw [h]
  refine ⟨rfl, ?_, ?_, ?_, rfl⟩ <;> decide

/-- Claim C2: whenever the three outside calls all return, `main` returns the
exit code 0, whatever states the calls leave behind. -/
theorem main_returns_zero {σ : Type} (f g h : Proc σ Unit) (s s1 s2 s3 : σ)
    (h1 : f s = Outcome.returned () s1) (h2 : g s1 = Outcome.returned () s2)
    (h3 : h s2 = Outcome.returned () s3) :
    main f g h s = Outcome.returned 0 s3 ∧ (main f g h s).exitStatus = 0 := by
  have e : main f g h s = Outcome.returned 0 s3 := by
    rw [main_eq, h1]; simp only []; rw [h2]; simp only []; rw [h3]
  rw [e]
  exact ⟨rfl, rfl⟩

/-- Instance of `main_returns_zero` on a counter: 3, then 4, 8 and 13. -/
theorem main_returns_zero_witness :
    main (call (fun n : Nat => n + 1)) (call (fun n => 2 * n)) (call (fun n => n + 5)) 3 =
        Outcome.returned 0 13 ∧
      (main (call (fun n : Nat => n + 1)) (call (fun n => 2 * n)) (call (fun n => n + 5))
        3).exitStatus = 0 :=
  main_returns_zero (call (fun n : Nat => n + 1)) (call (fun n => 2 * n))
    (call (fun n => n + 5)) 3 4 8 13 rfl rfl rfl

/-- Claim C3: when `BeefStart` returns and `Minesweeper_Android_Main` ends the
process, `BeefStop` is never called: the call log is exactly `["init", "run"]`
and holds no "finalize".  Conversely "finalize" is in the log, and then exactly
once, if and only if `Minesweeper_Android_Main` was called and returned. -/
theorem finalize_iff_run_returned {σ : Type} (f g h : Proc σ Unit) (w : σ) :
    (∀ w1 c w2, f w = Outcome.returned () w1 → g w1 = Outcome.terminated c w2 →
      main (traced "init" f) (traced "run" g) (traced "finalize" h) ([], w) =
          Outcome.terminated c (["init", "run"], w2) ∧
        callLog f g h w = ["init", "run"] ∧ "finalize" ∉ callLog f g h w) ∧
    ((callLog f g h w).count "finalize" = 1 ↔
      ∃ w1 w2, f w = Outcome.returned () w1 ∧ g w1 = Outcome.returned () w2) ∧
    ("finalize" ∈ callLog f g h w ↔
      ∃ w1 w2, f w = Outcome.returned () w1 ∧ g w1 = Outcome.returned () w2) ∧
    (callLog f g h w).count "finalize" ≤ 1 := by
  refine ⟨?_, ?_, ?_, ?_⟩
  · intro w1 c w2 h1 h2
    have e : main (traced "init" f) (traced "run" g) (traced "finalize" h) ([], w) =
        Outcome.terminated c (["init", "run"], w2) := by
      rw [main_eq]
      simp [traced, h1, h2]
    refine ⟨e, ?_, ?_⟩
    · unfold callLog; rw [e]; rfl
    · unfold callLog; rw [e]
      show "finalize" ∉ ["init", "run"]
      decide
  · rw [callLog_eq]
    cases hf : f w with
    | terminated c w1 => simp
    | returned u w1 =>
      cases hg : g w1 with
      | terminated c w2 => simp [hg]
      | returned u2 w2 => simp [hg]
  · rw [callLog_eq]
    cases hf : f w with
    | terminated c w1 => simp
    | returned u w1 =>
      cases hg : g w1 with
      | terminated c w2 => simp [hg]
      | returned u2 w2 => simp [hg]
  · rw [callLog_eq]
    cases hf : f w with
    | terminated c w1 => simp
    | returned u w1 =>
      cases hg : g w1 with
      | terminated c w2 => simp [hg]
      | returned u2 w2 => simp [hg]

/-- Instance of `finalize_iff_run_returned` where the application calls `exit(7)`. -/
theorem finalize_iff_run_returned_witness :
    main (traced "init" (call (fun n : Nat => n + 1))) (traced "run" (exitWith 7))
        (traced "finalize" (call (fun n : Nat => n))) ([], 0) =
          Outcome.terminated 7 (["init", "run"], 1) ∧
      callLog (call (fun n : Nat => n + 1)) (exitWith 7) (call (fun n : Nat => n)) 0 =
        ["init", "run"] ∧
      "finalize" ∉ callLog (call (fun n : Nat => n + 1)) (exitWith 7)
        (call (fun n : Nat => n)) 0 :=
  (finalize_iff_run_returned (call (fun n : Nat => n + 1)) (exitWith 7)
    (call (fun n : Nat => n)) 0).1 1 7 1 rfl rfl

/-- Claim C4: whatever the three outside calls do, "init" occurs exactly once in
the call log, at the first position, and every "run" entry comes after it. -/
theorem init_once_first {σ : Type} (f g h : Proc σ Unit) (w : σ) :
    (callLog f g h w).count "init" = 1 ∧
    (callLog f g h w).head? = some "init" ∧
    (∀ i j : Nat, (callLog f g h w)[i]? = some "init" → (callLog f g h w)[j]? = some "run" →
      i < j) := by
  have key : ∀ L : List String,
      L = ["init"] ∨ L = ["init", "run"] ∨ L = ["init", "run", "finalize"] →
      L.count "init" = 1 ∧ L.head? = some "init" ∧
        (∀ i j : Nat, L[i]? = some "init" → L[j]? = some "run" → i < j) := by
    intro L hL
    rcases hL with rfl | rfl | rfl
    · refine ⟨by decide, rfl, ?_⟩
      intro i j _ hj
      match j, hj with
      | 0, hj => simp at hj
      | j + 1, hj => simp at hj
    · refine ⟨by decide, rfl, ?_⟩
      intro i j hi hj
      match i, hi with
      | 0, _ =>
        match j, hj with
        | 0, hj => simp at hj
        | j + 1, _ => exact Nat.succ_pos j
      | 1, hi => simp at hi
      | i + 2, hi => simp at hi
    · refine ⟨by decide, rfl, ?_⟩
      intro i j hi hj
      match i, hi with
      | 0, _ =>
        match j, hj with
        | 0, hj => simp at hj
        | j + 1, _ => exact Nat.succ_pos j
      | 1, hi => simp at hi
      | 2, hi => simp at hi
      | i + 3, hi => simp at hi
  exact key _ (callLog_cases f g h w)

/-- Instance of `init_once_first` where the application calls `exit(2)`. -/
theorem init_once_first_witness :
    (callLog (call (fun n : Nat => n + 1)) (exitWith 2) (call (fun n : Nat => n)) 0).count
        "init" = 1 ∧ 0 < 1 :=
  ⟨(init_once_first (call (fun n : Nat => n + 1)) (exitWith 2) (call (fun n : Nat => n)) 0).1,
    (init_once_first (call (fun n : Nat => n + 1)) (exitWith 2)
      (call (fun n : Nat => n)) 0).2.2 0 1 rfl rfl⟩

/-- Claim C5, refuted as stated: when `BeefStart` ends the process with status 1
(`exit(1)`), `main` does not return 0; the process ends with status 1 and the
two later functions are never reached. -/
theorem main_exit_code_not_always_zero :
    main (exitWith 1) (call (fun n : Nat => n)) (call (fun n : Nat => n)) 0 =
        Outcome.terminated 1 0 ∧
      (main (exitWith 1) (call (fun n : Nat => n)) (call (fun n : Nat => n)) 0).exitStatus
        ≠ 0 ∧
      ¬ ∃ s, main (exitWith 1) (call (fun n : Nat => n)) (call (fun n : Nat => n)) 0 =
        Outcome.returned 0 s := by
  have e : main (exitWith 1) (call (fun n : Nat => n)) (call (fun n : Nat => n)) 0 =
      Outcome.terminated 1 0 := by
    rw [main_eq]; rfl
  rw [e]
  refine ⟨rfl, by decide, ?_⟩
  rintro ⟨s, hs⟩
  cases hs

/-- Claim C5, amended: the result of `main` is the exit code 0 in all cases in
which `main` returns.  For every behaviour of the three outside calls, `main`
returns exactly when all three calls return, the value it returns is then 0,
and when one of the calls ends the process `main` returns nothing and the exit
status of the process is the status that call ended it with. -/
theorem main_exit_code_zero_when_returns {σ : Type} (f g h : Proc σ Unit) (s : σ) :
    ((∃ s3, main f g h s = Outcome.returned 0 s3) ↔
      ∃ s1 s2 s3, f s = Outcome.returned () s1 ∧ g s1 = Outcome.returned () s2 ∧
        h s2 = Outcome.returned () s3) ∧
    (∀ v s3, main f g h s = Outcome.returned v s3 → v = 0) ∧
    (∀ c s1, f s = Outcome.terminated c s1 →
      main f g h s = Outcome.terminated c s1 ∧ (main f g h s).exitStatus = c) ∧
    (∀ s1 c s2, f s = Outcome.returned () s1 → g s1 = Outcome.terminated c s2 →
      main f g h s = Outcome.terminated c s2 ∧ (main f g h s).exitStatus = c) ∧
    (∀ s1 s2 c s3, f s = Outcome.returned () s1 → g s1 = Outcome.returned () s2 →
      h s2 = Outcome.terminated c s3 →
      main f g h s = Outcome.terminated c s3 ∧ (main f g h s).exitStatus = c) := by
  have st : ∀ (c : Int) (t : σ), main f g h s = Outcome.terminated c t →
      main f g h s = Outcome.terminated c t ∧ (main f g h s).exitStatus = c := by
    intro c t e
    refine ⟨e, ?_⟩
    rw [e]; rfl
  refine ⟨?_, ?_, ?_, ?_, ?_⟩
  · rw [main_eq]
    cases hf : f s with
    | terminated c s1 => simp
    | returned u s1 =>
      cases hg : g s1 with
      | terminated c s2 => simp [hg]
      | returned u2 s2 =>
        cases hh : h s2 with
        | terminated c s3 => simp [hg, hh]
        | returned u3 s3 => simp [hg, hh]
  · intro v s3
    rw [main_eq]
    cases hf : f s with
    | terminated c s1 => simp
    | returned u s1 =>
      cases hg : g s1 with
      | terminated c s2 => simp [hg]
      | returned u2 s2 =>
        cases hh : h s2 with
        | terminated c s3 => simp [hg, hh]
        | returned u3 s3 =>
          simp only [hg, hh]
          intro e
          cases e
          rfl
  · intro c s1 h1
    apply st
    rw [main_eq, h1]
  · intro s1 c s2 h1 h2
    apply st
    rw [main_eq, h1]; simp only []; rw [h2]
  · intro s1 s2 c s3 h1 h2 h3
    apply st
    rw [main_eq, h1]; simp only []; rw [h2]; simp only []; rw [h3]

/-- Instance of `main_exit_code_zero_when_returns` where the application calls
`exit(4)`: the process ends with status 4. -/
theorem main_exit_code_zero_when_returns_witness :
    main (call (fun n : Nat => n + 1)) (exitWith 4) (call (fun n : Nat => n)) 2 =
        Outcome.terminated 4 3 ∧
      (main (call (fun n : Nat => n + 1)) (exitWith 4) (call (fun n : Nat => n))
        2).exitStatus = 4 :=
  (main_exit_code_zero_when_returns (call (fun n : Nat => n + 1)) (exitWith 4)
    (call (fun n : Nat => n)) 2).2.2.2.1 3 4 3 rfl rfl

/-- Claim C6: with the three outside calls taken as arbitrary state transformers
`start`, `app` and `stop`, the state after `main` is `stop (app (start s))` for
every initial state `s`, so `main` changes nothing of its own; with all three the
identity, `main` leaves the state unchanged. -/
theorem main_frame {σ : Type} (start app stop : σ → σ) (s : σ) :
    main (call start) (call app) (call stop) s = Outcome.returned 0 (stop (app (start s))) ∧
    (main (call start) (call app) (call stop) s).state = stop (app (start s)) ∧
    main (call id) (call id) (call id) s = Outcome.returned 0 s ∧
    (main (call id) (call id) (call id) s).state = s := by
  have e : ∀ a b c : σ → σ,
      main (call a) (call b) (call c) s = Outcome.returned 0 (c (b (a s))) := by
    intro a b c
    rw [main_eq]; rfl
  rw [e start app stop, e id id id]
  exact ⟨rfl, rfl, rfl, rfl⟩

/-- Claim C7, refuted as stated: when `BeefStart` and `Minesweeper_Android_Main`
return and `BeefStop` ends the process, the call log is the full list
`["init", "run", "finalize"]` although a call has ended the process, so the log
being full is not equivalent to no call ending the process. -/
theorem callLog_full_with_terminating_stop :
    callLog (call (fun n : Nat => n)) (call (fun n : Nat => n)) (exitWith 1) 0 =
        ["init", "run", "finalize"] ∧
      main (traced "init" (call (fun n : Nat => n))) (traced "run" (call (fun n : Nat => n)))
          (traced "finalize" (exitWith 1)) ([], 0) =
        Outcome.terminated 1 (["init", "run", "finalize"], 0) ∧
      ¬ (callLog (call (fun n : Nat => n)) (call (fun n : Nat => n)) (exitWith 1) 0 =
          ["init", "run", "finalize"] ↔
        ∃ w1 w2 w3, call (fun n : Nat => n) 0 = Outcome.returned () w1 ∧
          call (fun n : Nat => n) w1 = Outcome.returned () w2 ∧
          (exitWith 1 : Proc Nat Unit) w2 = Outcome.returned () w3) := by
  have e : main (traced "init" (call (fun n : Nat => n)))
      (traced "run" (call (fun n : Nat => n))) (traced "finalize" (exitWith 1)) ([], 0) =
      Outcome.terminated 1 (["init", "run", "finalize"], 0) := by
    rw [main_eq]; rfl
  have l : callLog (call (fun n : Nat => n)) (call (fun n : Nat => n)) (exitWith 1) 0 =
      ["init", "run", "finalize"] := by
    unfold callLog; rw [e]; rfl
  refine ⟨l, e, ?_⟩
  intro hiff
  obtain ⟨w1, w2, w3, _, _, h3⟩ := hiff.mp l
  cases h3

/-- Claim C7, amended: for every behaviour of the three outside calls the call
log is a prefix of `["init", "run", "finalize"]`, it ends immediately after the
first call that ends the process, and it is the full three-element list exactly
when neither `BeefStart` nor `Minesweeper_Android_Main` ends the process, in
particular whenever no call does; no function is called twice and no call is
skipped in front of a later one. -/
theorem callLog_is_initial_segment {σ : Type} (f g h : Proc σ Unit) (w : σ) :
    callLog f g h w <+: ["init", "run", "finalize"] ∧
    (∀ c w1, f w = Outcome.terminated c w1 → callLog f g h w = ["init"]) ∧
    (∀ w1 c w2, f w = Outcome.returned () w1 → g w1 = Outcome.terminated c w2 →
      callLog f g h w = ["init", "run"]) ∧
    (∀ w1 w2 c w3, f w = Outcome.returned () w1 → g w1 = Outcome.returned () w2 →
      h w2 = Outcome.terminated c w3 → callLog f g h w = ["init", "run", "finalize"]) ∧
    (callLog f g h w = ["init", "run", "finalize"] ↔
      ∃ w1 w2, f w = Outcome.returned () w1 ∧ g w1 = Outcome.returned () w2) ∧
    ((∃ w1 w2 w3, f w = Outcome.returned () w1 ∧ g w1 = Outcome.returned () w2 ∧
      h w2 = Outcome.returned () w3) → callLog f g h w = ["init", "run", "finalize"]) ∧
    (callLog f g h w).Nodup ∧
    (∀ name, (callLog f g h w).count name ≤ 1) := by
  have hfull : callLog f g h w = ["init", "run", "finalize"] ↔
      ∃ w1 w2, f w = Outcome.returned () w1 ∧ g w1 = Outcome.returned () w2 := by
    rw [callLog_eq]
    cases hf : f w with
    | terminated c w1 => simp
    | returned u w1 =>
      cases hg : g w1 with
      | terminated c w2 => simp [hg]
      | returned u2 w2 => simp [hg]
  have hnodup : (callLog f g h w).Nodup := by
    rcases callLog_cases f g h w with e | e | e <;> rw [e] <;> decide
  refine ⟨?_, ?_, ?_, ?_, hfull, ?_, hnodup, ?_⟩
  · rcases callLog_cases f g h w with e | e | e
    · exact e ▸ ⟨["run", "finalize"], rfl⟩
    · exact e ▸ ⟨["finalize"], rfl⟩
    · rw [e]
  · intro c w1 h1
    rw [callLog_eq, h1]
  · intro w1 c w2 h1 h2
    rw [callLog_eq, h1]; simp only []; rw [h2]
  · intro w1 w2 c w3 h1 h2 _
    exact hfull.mpr ⟨w1, w2, h1, h2⟩
  · rintro ⟨w1, w2, _, h1, h2, _⟩
    exact hfull.mpr ⟨w1, w2, h1, h2⟩
  · intro name
    exact List.nodup_iff_count_le_one.mp hnodup name

/-- Instance of `callLog_is_initial_segment` where `BeefStart` calls `exit(3)`. -/
theorem callLog_is_initial_segment_witness :
    callLog (exitWith 3) (call (fun n : Nat => n)) (call (fun n : Nat => n)) 5 = ["init"] :=
  (callLog_is_initial_segment (exitWith 3) (call (fun n : Nat => n))
    (call (fun n : Nat => n)) 5).2.1 3 5 rfl

/-- Claim C8: with the three outside functions total functions on the outside
state, `main` returns: it yields the exit code 0 and the state
`stop (app (start w))`, after exactly three outside calls, one of each. -/
theorem main_total {σ : Type} (start app stop : σ → σ) (w : σ) :
    (∃ v s, main (call start) (call app) (call stop) w = Outcome.returned v s) ∧
    main (traced "init" (call start)) (traced "run" (call app))
        (traced "finalize" (call stop)) ([], w) =
      Outcome.returned 0 (["init", "run", "finalize"], stop (app (start w))) ∧
    (callLog (call start) (call app) (call stop) w).length = 3 := by
  have e : main (traced "init" (call start)) (traced "run" (call app))
      (traced "finalize" (call stop)) ([], w) =
      Outcome.returned 0 (["init", "run", "finalize"], stop (app (start w))) := by
    rw [main_eq]; rfl
  refine ⟨⟨0, stop (app (start w)), ?_⟩, e, ?_⟩
  · rw [main_eq]; rfl
  · unfold callLog; rw [e]; rfl

end Minesweeper
